import Mathlib

/-!
Verification of the smartseek supervision/resilience core against its
natural-language specification.

The TypeScript sources are shallowly embedded: each class becomes a Lean
structure whose methods become pure state-transformer functions; JavaScript
`Date.now()` timestamps become explicit `Nat` parameters (milliseconds);
fallible methods return `Except`; observable callback invocations are
returned as explicit data.  Floating-point literals that only feed exact
comparisons (confidence values, the 0.8/0.2 water-mark fractions) are
modelled as exact rationals / integer arithmetic.

The file is organised as definitions first (one namespace per source
module), then the theorems.
-/

set_option maxRecDepth 4000

namespace Smartseek

/-! ## Circuit breaker (src/resilience/circuit-breaker.ts) -/

namespace Resilience

inductive CBState where
  | CLOSED
  | OPEN
  | HALF_OPEN
deriving DecidableEq, Repr

structure CBConfig where
  failureThreshold : Nat
  resetTimeoutMs : Nat
  successThreshold : Nat
deriving DecidableEq, Repr

/-- Mutable fields of the `CircuitBreaker` class.  Timestamps are the values
`Date.now()` returned when the corresponding method ran. -/
structure Breaker where
  state : CBState
  failures : Nat
  successes : Nat
  lastFailureTime : Option Nat
  lastSuccessTime : Option Nat
  totalCalls : Nat
  totalFailures : Nat
  totalSuccesses : Nat
deriving DecidableEq, Repr

/-- A freshly constructed `CircuitBreaker`. -/
def Breaker.new : Breaker :=
  { state := .CLOSED
    failures := 0
    successes := 0
    lastFailureTime := none
    lastSuccessTime := none
    totalCalls := 0
    totalFailures := 0
    totalSuccesses := 0 }

/-- `CircuitBreaker.transition`: counter resets on entering each state; the
`onStateChange` callback is observational only and not modelled. -/
def Breaker.transition (b : Breaker) (newState : CBState) : Breaker :=
  if b.state = newState then b
  else
    match newState with
    | .CLOSED => { b with state := newState, failures := 0, successes := 0 }
    | .HALF_OPEN => { b with state := newState, successes := 0 }
    | .OPEN => { b with state := newState, successes := 0 }

/-- `CircuitBreaker.isAllowed` at time `now`.  Returns the admission verdict
and the (possibly transitioned) breaker.  The source computes
`this.lastFailureTime ? Date.now() - this.lastFailureTime : Infinity`;
a null (or `0`, which is falsy in JavaScript) last-failure time therefore
counts as an infinite elapsed time, which always meets the reset timeout. -/
def Breaker.isAllowed (cfg : CBConfig) (b : Breaker) (now : Nat) : Bool × Breaker :=
  match b.state with
  | .CLOSED => (true, b)
  | .OPEN =>
    let elapsedMeetsReset : Bool :=
      match b.lastFailureTime with
      | none => true
      | some t => if t = 0 then true else decide ((now : Int) - t ≥ cfg.resetTimeoutMs)
    if elapsedMeetsReset then (true, b.transition .HALF_OPEN)
    else (false, b)
  | .HALF_OPEN => (true, b)

/-- `CircuitBreaker.recordSuccess` at time `now`. -/
def Breaker.recordSuccess (cfg : CBConfig) (b : Breaker) (now : Nat) : Breaker :=
  let b := { b with
    totalCalls := b.totalCalls + 1
    totalSuccesses := b.totalSuccesses + 1
    lastSuccessTime := some now }
  match b.state with
  | .HALF_OPEN =>
    let b := { b with successes := b.successes + 1 }
    if b.successes ≥ cfg.successThreshold then b.transition .CLOSED else b
  | .CLOSED => { b with failures := 0 }
  | .OPEN => b

/-- `CircuitBreaker.recordFailure` at time `now`. -/
def Breaker.recordFailure (cfg : CBConfig) (b : Breaker) (t : Nat) : Breaker :=
  let b := { b with
    totalCalls := b.totalCalls + 1
    totalFailures := b.totalFailures + 1
    lastFailureTime := some t }
  match b.state with
  | .HALF_OPEN => b.transition .OPEN
  | .CLOSED =>
    let b := { b with failures := b.failures + 1 }
    if b.failures ≥ cfg.failureThreshold then b.transition .OPEN else b
  | .OPEN => b

/-- Record one failure per timestamp in `times`, in order. -/
def Breaker.recordFailures (cfg : CBConfig) (b : Breaker) (times : List Nat) : Breaker :=
  times.foldl (fun acc t => acc.recordFailure cfg t) b

/-- `CircuitBreaker.execute` at time `now`: the wrapped operation's behaviour
is supplied as `fnOutcome` (what `fn` would return if invoked).  The result
records the outcome, the updated breaker, and whether `fn` was invoked. -/
def Breaker.execute (cfg : CBConfig) (b : Breaker) (now : Nat)
    (fnOutcome : Except Unit α) : Except Unit α × Breaker × Bool :=
  let allowed := b.isAllowed cfg now
  if allowed.1 then
    match fnOutcome with
    | .ok a => (.ok a, allowed.2.recordSuccess cfg now, true)
    | .error e => (.error e, allowed.2.recordFailure cfg now, true)
  else
    (.error (), allowed.2, false)

/-! ## Bounded queue (src/resilience/bounded-queue.ts) -/

inductive OverflowStrategy where
  | reject
  | dropOldest
  | dropNewest
deriving DecidableEq, Repr

structure QueueConfig where
  maxSize : Nat
  overflowStrategy : OverflowStrategy
deriving DecidableEq, Repr

/-- Mutable fields of the `BoundedQueue` class.  The drop / water-mark
callbacks are observational and not modelled; the counters they accompany
are. -/
structure Queue (T : Type) where
  items : List T
  totalEnqueued : Nat
  totalDequeued : Nat
  totalDropped : Nat
  totalRejected : Nat
  highWaterMarkHits : Nat
  wasAboveHighWaterMark : Bool
deriving DecidableEq, Repr

/-- A freshly constructed `BoundedQueue`. -/
def Queue.new : Queue T :=
  ⟨[], 0, 0, 0, 0, 0, false⟩

/-- `Math.floor(maxSize * 0.8)`, modelled with exact rational arithmetic. -/
def QueueConfig.highWaterMark (cfg : QueueConfig) : Nat :=
  cfg.maxSize * 8 / 10

/-- `Math.floor(maxSize * 0.2)`, modelled with exact rational arithmetic. -/
def QueueConfig.lowWaterMark (cfg : QueueConfig) : Nat :=
  cfg.maxSize * 2 / 10

/-- The common tail of `enqueue`: `this.queue.push(item)`, the enqueue
counter, and the two water-mark checks. -/
def Queue.pushAndMarks (cfg : QueueConfig) (q : Queue T) (item : T) : Queue T :=
  let q := { q with items := q.items ++ [item], totalEnqueued := q.totalEnqueued + 1 }
  let q :=
    if q.items.length ≥ cfg.highWaterMark ∧ q.wasAboveHighWaterMark = false then
      { q with wasAboveHighWaterMark := true, highWaterMarkHits := q.highWaterMarkHits + 1 }
    else q
  if q.items.length < cfg.lowWaterMark ∧ q.wasAboveHighWaterMark = true then
    { q with wasAboveHighWaterMark := false }
  else q

/-- `BoundedQueue.enqueue`.  The thrown `QueueFullError` is modelled as
`Except.error (currentSize, maxSize)`; `Except.ok b` is the returned
boolean.  The updated queue is returned on both paths (a thrown error in
the source leaves the already-applied counter mutation in place). -/
def Queue.enqueue (cfg : QueueConfig) (q : Queue T) (item : T) :
    Except (Nat × Nat) Bool × Queue T :=
  if q.items.length ≥ cfg.maxSize then
    match cfg.overflowStrategy with
    | .reject =>
      (.error (q.items.length, cfg.maxSize), { q with totalRejected := q.totalRejected + 1 })
    | .dropOldest =>
      let q :=
        match q.items with
        | [] => q
        | _dropped :: rest => { q with items := rest, totalDropped := q.totalDropped + 1 }
      (.ok true, q.pushAndMarks cfg item)
    | .dropNewest =>
      (.ok false, { q with totalDropped := q.totalDropped + 1 })
  else
    (.ok true, q.pushAndMarks cfg item)

/-- `BoundedQueue.dequeue`. -/
def Queue.dequeue (cfg : QueueConfig) (q : Queue T) : Option T × Queue T :=
  match q.items with
  | [] => (none, q)
  | x :: rest =>
    let q := { q with items := rest, totalDequeued := q.totalDequeued + 1 }
    let q :=
      if q.items.length < cfg.lowWaterMark ∧ q.wasAboveHighWaterMark = true then
        { q with wasAboveHighWaterMark := false }
      else q
    (some x, q)

/-- `BoundedQueue.tryEnqueue`: `enqueue` with the thrown error converted to
`false`. -/
def Queue.tryEnqueue (cfg : QueueConfig) (q : Queue T) (item : T) : Bool × Queue T :=
  match q.enqueue cfg item with
  | (.error _, q') => (false, q')
  | (.ok b, q') => (b, q')

/-- `BoundedQueue.clear`. -/
def Queue.clear (q : Queue T) : List T × Queue T :=
  (q.items, { q with items := [], wasAboveHighWaterMark := false })

/-- One public mutating operation on a bounded queue. -/
inductive QueueOp (T : Type) where
  | enq (item : T)
  | tryEnq (item : T)
  | deq
  | clearAll
deriving DecidableEq, Repr

/-- Apply one operation, keeping only the resulting queue state. -/
def Queue.step (cfg : QueueConfig) (q : Queue T) : QueueOp T → Queue T
  | .enq item => (q.enqueue cfg item).2
  | .tryEnq item => (q.tryEnqueue cfg item).2
  | .deq => (q.dequeue cfg).2
  | .clearAll => q.clear.2

/-- Run a sequence of operations. -/
def Queue.run (cfg : QueueConfig) (q : Queue T) (ops : List (QueueOp T)) : Queue T :=
  ops.foldl (Queue.step cfg) q

/-- Repeatedly `dequeue` until empty, collecting the returned items: the
queue's eventual dequeue sequence. -/
def Queue.drainFuel (cfg : QueueConfig) : Nat → Queue T → List T
  | 0, _ => []
  | n + 1, q =>
    match q.dequeue cfg with
    | (none, _) => []
    | (some x, q') => x :: Queue.drainFuel cfg n q'

def Queue.drain (cfg : QueueConfig) (q : Queue T) : List T :=
  Queue.drainFuel cfg q.items.length q

end Resilience

/-! ## Heartbeat monitor (src/supervisor/heartbeat-monitor.ts) -/

namespace Supervisor

structure HBConfig where
  intervalMs : Nat
  timeoutMs : Nat
  missedThreshold : Nat
deriving DecidableEq, Repr

/-- Mutable fields of the `HeartbeatMonitor` class.  `intervals` is the
rolling list of inter-heartbeat gaps kept for averaging. -/
structure HBMonitor where
  lastHeartbeat : Option Nat
  missedCount : Nat
  totalReceived : Nat
  totalMissed : Nat
  intervals : List Nat
  isAlive : Bool
  started : Bool
deriving DecidableEq, Repr

/-- A freshly constructed `HeartbeatMonitor`. -/
def HBMonitor.new : HBMonitor :=
  ⟨none, 0, 0, 0, [], false, false⟩

/-- `HeartbeatMonitor.start` (the `setInterval` registration itself is
modelled by driving `checkHeartbeat` explicitly at the check times). -/
def HBMonitor.start (m : HBMonitor) : HBMonitor :=
  if m.started then m
  else { m with started := true, isAlive := true, missedCount := 0 }

/-- `HeartbeatMonitor.recordHeartbeat` at time `now`. -/
def HBMonitor.recordHeartbeat (m : HBMonitor) (now : Nat) : HBMonitor :=
  let intervals :=
    match m.lastHeartbeat with
    | some t =>
      let intervals := m.intervals ++ [now - t]
      if intervals.length > 100 then intervals.tail else intervals
    | none => m.intervals
  { m with
    lastHeartbeat := some now
    intervals := intervals
    missedCount := 0
    totalReceived := m.totalReceived + 1
    isAlive := true }

/-- Result of one `checkHeartbeat` tick: the new monitor state and whether
the `onMissed` / `onDead` callbacks were invoked during this tick. -/
structure CheckOutcome where
  monitor : HBMonitor
  missedFired : Bool
  deadFired : Bool
deriving DecidableEq, Repr

/-- `HeartbeatMonitor.checkHeartbeat` at time `now`.  Note that the
`lastHeartbeat === null` branch only increments the missed counters and
fires neither callback. -/
def HBMonitor.checkHeartbeat (cfg : HBConfig) (m : HBMonitor) (now : Nat) : CheckOutcome :=
  if m.started = false then ⟨m, false, false⟩
  else
    match m.lastHeartbeat with
    | none =>
      ⟨{ m with missedCount := m.missedCount + 1, totalMissed := m.totalMissed + 1 },
        false, false⟩
    | some t =>
      if (now : Int) - t > cfg.timeoutMs then
        let m := { m with
          missedCount := m.missedCount + 1
          totalMissed := m.totalMissed + 1
          isAlive := false }
        ⟨m, true, decide (m.missedCount ≥ cfg.missedThreshold)⟩
      else ⟨m, false, false⟩

/-- Run `n` consecutive periodic checks with no intervening heartbeat, the
first at time `nextTime` and each following one `intervalMs` later.  Returns
the final monitor and the number of checks in which the dead callback fired. -/
def HBMonitor.runSilentChecks (cfg : HBConfig) :
    Nat → HBMonitor → Nat → HBMonitor × Nat
  | 0, m, _ => (m, 0)
  | n + 1, m, nextTime =>
    let o := m.checkHeartbeat cfg nextTime
    let r := HBMonitor.runSilentChecks cfg n o.monitor (nextTime + cfg.intervalMs)
    (r.1, (if o.deadFired then 1 else 0) + r.2)

/-! ## Worker manager (src/supervisor/worker-manager.ts) -/

structure WorkerConfig where
  maxRestarts : Nat
  restartDelayMs : Nat
  maxRestartDelayMs : Nat
  backoffMultiplier : Nat
  restartWindowMs : Nat
deriving DecidableEq, Repr

inductive WState where
  | stopped
  | starting
  | running
  | stopping
  | crashed
  | hung
deriving DecidableEq, Repr

/-- Mutable fields of the `WorkerManager` class.  `workerConnected` models
`this.worker !== null`; `restartTimerPending` models
`this.restartTimer !== null`.  The embedded heartbeat monitor is a separate
`HBMonitor` object and is not needed by the claims about this class. -/
structure WM where
  workerConnected : Bool
  state : WState
  startedAt : Option Nat
  restartCount : Nat
  consecutiveRestarts : Nat
  lastRestartAt : Option Nat
  lastExitCode : Option Int
  lastExitSignal : Option String
  restartTimerPending : Bool
  restartTimerDelay : Nat
  shouldRestart : Bool
deriving DecidableEq, Repr

/-- A freshly constructed `WorkerManager` (`shouldRestart` initialises to
true). -/
def WM.new : WM :=
  ⟨false, .stopped, none, 0, 0, none, none, none, false, 0, true⟩

/-- The synchronous prefix of `WorkerManager.start`. -/
def WM.startRequest (wm : WM) : WM :=
  if wm.state = .running ∨ wm.state = .starting then wm
  else { wm with shouldRestart := true, state := .starting }

/-- The tail of a successful `spawnWorker` at time `now`: the worker handle
is set and the state becomes running. -/
def WM.spawnSuccess (wm : WM) (now : Nat) : WM :=
  { wm with workerConnected := true, state := .running, startedAt := some now }

/-- `WorkerManager.scheduleRestart` at time `now`.  The `t ≠ 0` conjunct
mirrors the JavaScript truthiness test `this.lastRestartAt && ...`.  The
`setTimeout` callback is modelled separately by `WM.restartTimerFire`. -/
def WM.scheduleRestart (cfg : WorkerConfig) (wm : WM) (now : Nat) : WM :=
  let wm :=
    match wm.lastRestartAt with
    | some t =>
      if t ≠ 0 ∧ (now : Int) - t > cfg.restartWindowMs then
        { wm with consecutiveRestarts := 0 }
      else wm
    | none => wm
  let wm := { wm with
    consecutiveRestarts := wm.consecutiveRestarts + 1
    restartCount := wm.restartCount + 1 }
  if wm.consecutiveRestarts > cfg.maxRestarts then
    { wm with shouldRestart := false }
  else
    let delay := min
      (cfg.restartDelayMs * cfg.backoffMultiplier ^ (wm.consecutiveRestarts - 1))
      cfg.maxRestartDelayMs
    { wm with restartTimerPending := true, restartTimerDelay := delay }

/-- `WorkerManager.handleWorkerExit` at time `now`. -/
def WM.handleWorkerExit (cfg : WorkerConfig) (wm : WM) (now : Nat)
    (code : Option Int) (signal : Option String) : WM :=
  let wm := { wm with
    workerConnected := false
    lastExitCode := code
    lastExitSignal := signal }
  if wm.state = .stopping then { wm with state := .stopped }
  else
    let wm := { wm with state := .crashed }
    if wm.shouldRestart then wm.scheduleRestart cfg now else wm

/-- The synchronous prefix of `WorkerManager.stop` (up to its first await):
the `!this.worker || stopped || stopping` guard, and — when the guard does
not return early — disabling auto-restart, entering the stopping state and
cancelling a pending restart timer.  The remainder of `stop` (shutdown
message, bounded wait, force kill, final stopped state) runs only after this
prefix and cannot re-enable the restart machinery. -/
def WM.stopRequest (wm : WM) : WM :=
  if wm.workerConnected = false ∨ wm.state = .stopped ∨ wm.state = .stopping then wm
  else
    let wm := { wm with shouldRestart := false, state := .stopping }
    if wm.restartTimerPending then { wm with restartTimerPending := false } else wm

/-- The `setTimeout` callback registered by `scheduleRestart` firing at time
`now`: if the timer is still pending it clears itself, stamps
`lastRestartAt` and attempts a new spawn.  The boolean reports whether a
spawn attempt occurred. -/
def WM.restartTimerFire (wm : WM) (now : Nat) : WM × Bool :=
  if wm.restartTimerPending then
    ({ wm with restartTimerPending := false, lastRestartAt := some now }, true)
  else (wm, false)

/-- Trace for claim C3: a manager started and running at t = 1000 whose
worker exits with code 1 at t = 71000, leaving it crashed with a pending
restart timer and a null worker handle. -/
def crashedWithPendingRestart : WM :=
  WM.handleWorkerExit ⟨10, 1000, 30000, 2, 60000⟩
    (WM.spawnSuccess WM.new.startRequest 1000) 71000 (some 1) none

/-! ## Recovery engine (src/supervisor/ai-recovery.ts) -/

inductive FailureReason where
  | crash
  | hang
  | maxRestarts
deriving DecidableEq, Repr

inductive RecoveryAction where
  | restart
  | wait
  | escalate
  | giveUp
deriving DecidableEq, Repr

/-- A `RecoveryDecision`; the free-form `metadata` field is observational
and not modelled. -/
structure RecoveryDecision where
  action : RecoveryAction
  reason : String
  confidence : Rat
  waitMs : Option Nat
  timestamp : Nat
deriving DecidableEq, Repr

/-- A `FailureRecord` of the rolling history.  The nested `decision` field
is stored by `recordDecision` but never read by the decision rules, so it is
omitted here. -/
structure FailureRecord where
  timestamp : Nat
  reason : FailureReason
  uptime : Nat
deriving DecidableEq, Repr

structure AIRecoveryConfig where
  maxWaitMs : Nat
  historySize : Nat
deriving DecidableEq, Repr

/-- `AIRecovery.getRecentFailures`: history entries whose timestamp is at or
after `now - windowMs`. -/
def getRecentFailures (history : List FailureRecord) (now windowMs : Nat) :
    List FailureRecord :=
  history.filter fun f => decide ((f.timestamp : Int) ≥ (now : Int) - (windowMs : Int))

/-- `AIRecovery.makeHeuristicDecision` at time `now`, over the context's
failure reason, consecutive-crash count and worker uptime, plus the rolling
failure history. -/
def makeHeuristicDecision (cfg : AIRecoveryConfig) (history : List FailureRecord)
    (reason : FailureReason) (consecutiveCrashes : Nat) (uptime : Nat) (now : Nat) :
    RecoveryDecision :=
  let recentFailures := getRecentFailures history now (5 * 60 * 1000)
  let failureRate := recentFailures.length
  let isRapidFailure := failureRate ≥ 3
  let isBootLoop := (recentFailures.filter fun f => decide (f.uptime < 10000)).length ≥ 3
  if isBootLoop then
    { action := .escalate
      reason := "Boot loop detected - worker failing within 10s repeatedly"
      confidence := 9/10, waitMs := none, timestamp := now }
  else if isRapidFailure then
    { action := .wait
      reason := "Rapid failures detected - waiting with exponential backoff"
      confidence := 8/10
      waitMs := some (min (30000 * 2 ^ (min consecutiveCrashes 5)) cfg.maxWaitMs)
      timestamp := now }
  else if reason = .hang then
    { action := .restart
      reason := "Worker hung - likely deadlock, immediate restart"
      confidence := 85/100, waitMs := none, timestamp := now }
  else if reason = .maxRestarts then
    { action := .escalate
      reason := "Maximum restart attempts exceeded"
      confidence := 95/100, waitMs := none, timestamp := now }
  else if uptime > 60000 then
    { action := .restart
      reason := "Worker was stable before crash - likely transient error"
      confidence := 75/100, waitMs := none, timestamp := now }
  else if consecutiveCrashes ≤ 3 then
    { action := .restart
      reason := "Early crash - attempting recovery"
      confidence := 7/10, waitMs := some (1000 * consecutiveCrashes), timestamp := now }
  else if consecutiveCrashes ≤ 7 then
    { action := .wait
      reason := "Multiple crashes - waiting before next attempt"
      confidence := 65/100
      waitMs := some (min (10000 * consecutiveCrashes) cfg.maxWaitMs)
      timestamp := now }
  else
    { action := .giveUp
      reason := "Too many consecutive crashes - stopping recovery attempts"
      confidence := 8/10, waitMs := none, timestamp := now }

/-! ## Supervisor (the `Supervisor` class bundled in
src/supervisor/heartbeat-monitor.ts) -/

inductive SupState where
  | stopped
  | starting
  | running
  | stopping
  | failed
deriving DecidableEq, Repr

/-- The supervisor fields relevant to its own lifecycle state machine. -/
structure Sup where
  state : SupState
  startedAt : Option Nat
  consecutiveCrashes : Nat
  shutdownRequested : Bool
deriving DecidableEq, Repr

/-- `Supervisor.stop`: returns unchanged when already stopped or stopping;
otherwise enters stopping, requests shutdown, awaits the worker manager's
stop, and finishes in the stopped state with `startedAt` cleared. -/
def Sup.stopSupervisor (s : Sup) : Sup :=
  if s.state = .stopped ∨ s.state = .stopping then s
  else
    let s := { s with state := .stopping, shutdownRequested := true }
    { s with state := .stopped, startedAt := none }

/-- `Supervisor.executeRecoveryAction`: restart and wait are no-ops at this
layer, escalate only emits, and give-up sets the failed state and then
invokes `stop`. -/
def Sup.executeRecoveryAction (s : Sup) (action : RecoveryAction) : Sup :=
  match action with
  | .restart => s
  | .wait => s
  | .escalate => s
  | .giveUp => Sup.stopSupervisor { s with state := .failed }

/-- A supervisor observed in the running state. -/
def runningSup : Sup :=
  ⟨.running, some 0, 0, false⟩

end Supervisor

/-! ## Resilient call composer (the retry-with-circuit module bundled in
src/health/index.ts) -/

namespace Health

open Resilience

/-- The error taxonomy distinguished by `isDefaultRetryable`: `TimeoutError`,
`CircuitBreakerOpenError`, the message-classified non-retryable errors, and
everything else. -/
inductive RCError where
  | timeout
  | circuitOpen
  | unauthorized
  | invalidInput
  | notFound
  | generic
deriving DecidableEq, Repr

/-- `isDefaultRetryable`. -/
def isDefaultRetryable : RCError → Bool
  | .timeout => false
  | .circuitOpen => false
  | .unauthorized => false
  | .invalidInput => false
  | .notFound => false
  | .generic => true

/-- The retry loop of `retryAsync` from attempt number `attempt` with the
given remaining attempts (fuel); `fn n` is the outcome the wrapped operation
produces on its n-th invocation.  Returns the final outcome and the number
of attempts made.  Fuel 0 corresponds to `maxAttempts = 0`, where the source
loop body never runs and the undefined `lastError` is thrown. -/
def retryFrom (fn : Nat → Except RCError α) (attempt : Nat) :
    Nat → Except RCError α × Nat
  | 0 => (.error .generic, 0)
  | remaining + 1 =>
    match fn attempt with
    | .ok a => (.ok a, 1)
    | .error e =>
      if remaining ≠ 0 ∧ isDefaultRetryable e = true then
        let r := retryFrom fn (attempt + 1) remaining
        (r.1, r.2 + 1)
      else (.error e, 1)

/-- `retryAsync` with the default retryability predicate (as used by
`resilientCall` when no custom predicate is configured).  Backoff delays
only affect timing and are not modelled. -/
def retryAsync (fn : Nat → Except RCError α) (maxAttempts : Nat) :
    Except RCError α × Nat :=
  retryFrom fn 1 maxAttempts

/-- Observable outcome of one `resilientCall` invocation with a circuit
breaker configured: the result, the breaker afterwards, how many times
`isAllowed` was consulted, how many attempts the retry loop made, and how
many success/failure outcomes were recorded into the breaker. -/
structure RCOutcome (α : Type) where
  result : Except RCError α
  breaker : Breaker
  admissionChecks : Nat
  attemptsMade : Nat
  recordedSuccesses : Nat
  recordedFailures : Nat
deriving Repr

/-- `resilientCall` with a circuit breaker configured (and no timeout, which
only reshapes individual attempt errors): admission is consulted once before
the retry loop; one overall success or failure is recorded afterwards, with
circuit-open errors exempted from failure recording. -/
def resilientCall (cbCfg : CBConfig) (b : Breaker) (now : Nat)
    (fn : Nat → Except RCError α) (maxAttempts : Nat) : RCOutcome α :=
  let allowed := b.isAllowed cbCfg now
  if allowed.1 = false then
    { result := .error .circuitOpen, breaker := allowed.2, admissionChecks := 1
      attemptsMade := 0, recordedSuccesses := 0, recordedFailures := 0 }
  else
    let r := retryAsync fn maxAttempts
    match r.1 with
    | .ok a =>
      { result := .ok a, breaker := allowed.2.recordSuccess cbCfg now
        admissionChecks := 1, attemptsMade := r.2
        recordedSuccesses := 1, recordedFailures := 0 }
    | .error e =>
      if e = .circuitOpen then
        { result := .error e, breaker := allowed.2, admissionChecks := 1
          attemptsMade := r.2, recordedSuccesses := 0, recordedFailures := 0 }
      else
        { result := .error e, breaker := allowed.2.recordFailure cbCfg now
          admissionChecks := 1, attemptsMade := r.2
          recordedSuccesses := 0, recordedFailures := 1 }

end Health

end Smartseek

/-! # Theorems -/

namespace Smartseek
namespace Resilience

/-- While below the failure threshold, recorded failures keep the breaker
closed and count up one by one. -/
theorem Breaker.recordFailures_closed_lt (cfg : CBConfig) :
    ∀ (times : List Nat) (b : Breaker), b.state = .CLOSED →
      b.failures + times.length < cfg.failureThreshold →
      (b.recordFailures cfg times).state = .CLOSED ∧
      (b.recordFailures cfg times).failures = b.failures + times.length := by
  intro times
  induction times with
  | nil => intro b hs _; simpa [Breaker.recordFailures] using hs
  | cons t rest ih =>
    intro b hs hlt
    have hlt' : b.failures + (rest.length + 1) < cfg.failureThreshold := by
      simpa [List.length_cons] using hlt
    have hstep : (b.recordFailure cfg t).state = .CLOSED ∧
        (b.recordFailure cfg t).failures = b.failures + 1 := by
      unfold Breaker.recordFailure
      rw [hs]
      have hnotge : ¬ (b.failures + 1 ≥ cfg.failureThreshold) := by
        omega
      simp [hnotge]
    have hrest := ih (b.recordFailure cfg t) hstep.1 (by
      rw [hstep.2]; omega)
    refine ⟨?_, ?_⟩
    · simpa [Breaker.recordFailures, List.foldl_cons] using hrest.1
    · have := hrest.2
      rw [hstep.2] at this
      simpa [Breaker.recordFailures, List.foldl_cons, Nat.add_comm, Nat.add_assoc,
        Nat.add_left_comm] using this

/-- A recorded failure in the closed state with the counter one short of the
threshold trips the breaker open. -/
theorem Breaker.recordFailure_trips (cfg : CBConfig) (b : Breaker) (t : Nat)
    (hs : b.state = .CLOSED) (hge : b.failures + 1 ≥ cfg.failureThreshold) :
    (b.recordFailure cfg t).state = .OPEN := by
  simp [Breaker.recordFailure, Breaker.transition, hs, hge]

/-- Claim C1: for a circuit breaker in the closed state with a fresh
consecutive-failure counter, exactly `failureThreshold` consecutive recorded
failures (and no fewer) move the state to open; while open, an admission
check before `resetTimeoutMs` has elapsed since the last failure is rejected
and `execute` does not invoke the wrapped operation; the first admission
check at or after `resetTimeoutMs` has elapsed is allowed through and the
state becomes half-open. -/
theorem claim_C1_circuit_breaker_trip_and_reset (cfg : CBConfig)
    (hthr : 1 ≤ cfg.failureThreshold) :
    (∀ times : List Nat, times.length < cfg.failureThreshold →
        (Breaker.new.recordFailures cfg times).state = .CLOSED) ∧
    (∀ times : List Nat, times.length = cfg.failureThreshold →
        (Breaker.new.recordFailures cfg times).state = .OPEN) ∧
    (∀ (b : Breaker) (t now : Nat), b.state = .OPEN → b.lastFailureTime = some t →
        0 < t → (now : Int) - t < cfg.resetTimeoutMs →
        b.isAllowed cfg now = (false, b) ∧
        ∀ fnOutcome : Except Unit Nat,
          b.execute cfg now fnOutcome = (.error (), b, false)) ∧
    (∀ (b : Breaker) (t now : Nat), b.state = .OPEN → b.lastFailureTime = some t →
        0 < t → (now : Int) - t ≥ cfg.resetTimeoutMs →
        (b.isAllowed cfg now).1 = true ∧ (b.isAllowed cfg now).2.state = .HALF_OPEN) := by
  refine ⟨?_, ?_, ?_, ?_⟩
  · intro times hlt
    exact (Breaker.recordFailures_closed_lt cfg times Breaker.new rfl
      (by simpa [Breaker.new] using hlt)).1
  · intro times hlen
    rcases times.eq_nil_or_concat with hnil | ⟨L, last, hcat⟩
    · exfalso; rw [hnil] at hlen; simp at hlen; omega
    · subst hcat
      rw [List.concat_eq_append] at hlen ⊢
      have hL : L.length + 1 = cfg.failureThreshold := by
        simpa using hlen
      have hpre := Breaker.recordFailures_closed_lt cfg L Breaker.new rfl
        (by simp [Breaker.new]; omega)
      have hfold : Breaker.new.recordFailures cfg (L ++ [last]) =
          (Breaker.new.recordFailures cfg L).recordFailure cfg last := by
        simp [Breaker.recordFailures]
      rw [hfold]
      exact Breaker.recordFailure_trips cfg _ last hpre.1 (by
        rw [hpre.2]; simp [Breaker.new]; omega)
  · intro b t now hs hlf ht hlt
    have hreject : b.isAllowed cfg now = (false, b) := by
      unfold Breaker.isAllowed
      rw [hs, hlf]
      have htne : ¬ (t = 0) := by omega
      have hnotge : ¬ ((now : Int) - t ≥ cfg.resetTimeoutMs) := by omega
      simp [htne, hnotge]
    refine ⟨hreject, ?_⟩
    intro fnOutcome
    unfold Breaker.execute
    rw [hreject]
    simp
  · intro b t now hs hlf ht hge
    unfold Breaker.isAllowed
    rw [hs, hlf]
    have htne : ¬ (t = 0) := by omega
    simp [htne, hge, Breaker.transition, hs]

/-- Concrete instantiation of claim C1 with the default configuration
(threshold 5, reset timeout 30000 ms). -/
theorem claim_C1_witness :
    (Breaker.new.recordFailures ⟨5, 30000, 3⟩ [1, 2, 3, 4]).state = CBState.CLOSED ∧
    (Breaker.new.recordFailures ⟨5, 30000, 3⟩ [1, 2, 3, 4, 5]).state = CBState.OPEN ∧
    (Breaker.new.recordFailures ⟨5, 30000, 3⟩ [1, 2, 3, 4, 5]).isAllowed ⟨5, 30000, 3⟩ 10000
      = (false, Breaker.new.recordFailures ⟨5, 30000, 3⟩ [1, 2, 3, 4, 5]) ∧
    ((Breaker.new.recordFailures ⟨5, 30000, 3⟩ [1, 2, 3, 4, 5]).isAllowed ⟨5, 30000, 3⟩ 40000).1
      = true ∧
    ((Breaker.new.recordFailures ⟨5, 30000, 3⟩ [1, 2, 3, 4, 5]).isAllowed ⟨5, 30000, 3⟩
      40000).2.state = CBState.HALF_OPEN := by
  have h := claim_C1_circuit_breaker_trip_and_reset ⟨5, 30000, 3⟩ (by decide)
  refine ⟨h.1 [1, 2, 3, 4] (by decide), h.2.1 [1, 2, 3, 4, 5] (by decide), ?_, ?_, ?_⟩
  · exact (h.2.2.1 _ 5 10000 (by decide) (by decide) (by decide) (by decide)).1
  · exact (h.2.2.2 _ 5 40000 (by decide) (by decide) (by decide) (by decide)).1
  · exact (h.2.2.2 _ 5 40000 (by decide) (by decide) (by decide) (by decide)).2

/-- Claim C10: `recordSuccess` never moves the breaker to open; in closed it
stays closed and resets the consecutive-failure count; in open it stays open;
in half-open it stays half-open below the success threshold and closes once
the success count reaches it. -/
theorem claim_C10_recordSuccess_never_opens (cfg : CBConfig) (b : Breaker) (now : Nat) :
    ((b.recordSuccess cfg now).state = .OPEN → b.state = .OPEN) ∧
    (b.state = .CLOSED →
      (b.recordSuccess cfg now).state = .CLOSED ∧ (b.recordSuccess cfg now).failures = 0) ∧
    (b.state = .OPEN → (b.recordSuccess cfg now).state = .OPEN) ∧
    (b.state = .HALF_OPEN →
      (b.successes + 1 < cfg.successThreshold ∧
        (b.recordSuccess cfg now).state = .HALF_OPEN) ∨
      (b.successes + 1 ≥ cfg.successThreshold ∧
        (b.recordSuccess cfg now).state = .CLOSED)) := by
  rcases hstate : b.state
  · simp [Breaker.recordSuccess, Breaker.transition, hstate]
  · simp [Breaker.recordSuccess, Breaker.transition, hstate]
  · by_cases hge : cfg.successThreshold ≤ b.successes + 1
    · simp [Breaker.recordSuccess, Breaker.transition, hstate, hge]
    · have hlt : b.successes + 1 < cfg.successThreshold := by omega
      simp [Breaker.recordSuccess, Breaker.transition, hstate, hge, hlt]

/-- Concrete instantiation of claim C10 in the closed and open states. -/
theorem claim_C10_witness :
    ((Breaker.new.recordSuccess ⟨5, 30000, 3⟩ 7).state = CBState.CLOSED ∧
      (Breaker.new.recordSuccess ⟨5, 30000, 3⟩ 7).failures = 0) ∧
    ((Breaker.new.recordFailures ⟨5, 30000, 3⟩ [1, 2, 3, 4, 5]).recordSuccess
      ⟨5, 30000, 3⟩ 7).state = CBState.OPEN := by
  constructor
  · exact (claim_C10_recordSuccess_never_opens ⟨5, 30000, 3⟩ Breaker.new 7).2.1 (by decide)
  · exact (claim_C10_recordSuccess_never_opens ⟨5, 30000, 3⟩
      (Breaker.new.recordFailures ⟨5, 30000, 3⟩ [1, 2, 3, 4, 5]) 7).2.2.1 (by decide)

theorem Queue.pushAndMarks_items (cfg : QueueConfig) (q : Queue T) (item : T) :
    (q.pushAndMarks cfg item).items = q.items ++ [item] := by
  unfold Queue.pushAndMarks
  dsimp only
  split <;> split <;> rfl

theorem Queue.dequeue_cons (cfg : QueueConfig) (q : Queue T) (x : T) (rest : List T)
    (h : q.items = x :: rest) :
    (q.dequeue cfg).1 = some x ∧ (q.dequeue cfg).2.items = rest := by
  unfold Queue.dequeue
  rw [h]
  dsimp only
  split <;> simp

theorem Queue.drain_eq_items (cfg : QueueConfig) :
    ∀ (n : Nat) (q : Queue T), q.items.length ≤ n → q.drainFuel cfg n = q.items := by
  intro n
  induction n with
  | zero =>
    intro q hlen
    have : q.items = [] := List.length_eq_zero.mp (Nat.le_zero.mp hlen)
    simp [Queue.drainFuel, this]
  | succ n ih =>
    intro q hlen
    unfold Queue.drainFuel
    cases hitems : q.items with
    | nil =>
      have : q.dequeue cfg = (none, q) := by unfold Queue.dequeue; rw [hitems]
      rw [this]
    | cons x rest =>
      have hd := Queue.dequeue_cons cfg q x rest hitems
      rcases hdq : q.dequeue cfg with ⟨r1, q'⟩
      rw [hdq] at hd
      dsimp only at hd
      have hrest : q'.items = rest := hd.2
      have : q'.drainFuel cfg n = q'.items := by
        apply ih
        rw [hrest]
        have := hlen
        rw [hitems] at this
        simpa using this
      rw [hd.1]
      show x :: Queue.drainFuel cfg n q' = x :: rest
      rw [this, hrest]

theorem Queue.drain_items (cfg : QueueConfig) (q : Queue T) :
    q.drain cfg = q.items :=
  Queue.drain_eq_items cfg q.items.length q (Nat.le_refl _)

theorem Queue.enqueue_length_le (cfg : QueueConfig) (q : Queue T) (item : T)
    (hmax : 1 ≤ cfg.maxSize) (hinv : q.items.length ≤ cfg.maxSize) :
    (q.enqueue cfg item).2.items.length ≤ cfg.maxSize := by
  unfold Queue.enqueue
  by_cases hfull : q.items.length ≥ cfg.maxSize
  · rw [if_pos hfull]
    rcases hstrat : cfg.overflowStrategy
    · simpa using hinv
    · cases hitems : q.items with
      | nil =>
        simp [Queue.pushAndMarks_items, hitems]
        omega
      | cons x rest =>
        simp [Queue.pushAndMarks_items, hitems]
        rw [hitems] at hinv
        simp at hinv
        omega
    · simpa using hinv
  · rw [if_neg hfull]
    simp [Queue.pushAndMarks_items]
    omega

theorem Queue.tryEnqueue_snd (cfg : QueueConfig) (q : Queue T) (item : T) :
    (q.tryEnqueue cfg item).2 = (q.enqueue cfg item).2 := by
  unfold Queue.tryEnqueue
  rcases q.enqueue cfg item with ⟨r, q'⟩
  cases r <;> rfl

theorem Queue.dequeue_length_le (cfg : QueueConfig) (q : Queue T)
    (hinv : q.items.length ≤ cfg.maxSize) :
    (q.dequeue cfg).2.items.length ≤ cfg.maxSize := by
  cases hitems : q.items with
  | nil =>
    have : q.dequeue cfg = (none, q) := by unfold Queue.dequeue; rw [hitems]
    rw [this]
    exact hinv
  | cons x rest =>
    have h := (Queue.dequeue_cons cfg q x rest hitems).2
    rw [h]
    rw [hitems] at hinv
    simp at hinv
    omega

theorem Queue.step_length_le (cfg : QueueConfig) (q : Queue T) (op : QueueOp T)
    (hmax : 1 ≤ cfg.maxSize) (hinv : q.items.length ≤ cfg.maxSize) :
    (q.step cfg op).items.length ≤ cfg.maxSize := by
  cases op with
  | enq item => exact Queue.enqueue_length_le cfg q item hmax hinv
  | tryEnq item =>
    show (q.tryEnqueue cfg item).2.items.length ≤ cfg.maxSize
    rw [Queue.tryEnqueue_snd]
    exact Queue.enqueue_length_le cfg q item hmax hinv
  | deq => exact Queue.dequeue_length_le cfg q hinv
  | clearAll => exact Nat.zero_le _

/-- Claim C6: a bounded queue of capacity C under the reject strategy that
already holds C items rejects the next enqueue with a queue-full failure,
leaving the item sequence and hence the size unchanged at C. -/
theorem claim_C6_reject_full_enqueue (T : Type) (cfg : QueueConfig) (q : Queue T)
    (item : T) (hstrat : cfg.overflowStrategy = .reject)
    (hfull : q.items.length = cfg.maxSize) :
    (q.enqueue cfg item).1 = .error (cfg.maxSize, cfg.maxSize) ∧
    (q.enqueue cfg item).2.items = q.items ∧
    (q.enqueue cfg item).2.items.length = cfg.maxSize := by
  have hge : q.items.length ≥ cfg.maxSize := le_of_eq hfull.symm
  unfold Queue.enqueue
  simp [hge, hstrat, hfull]

/-- Concrete instantiation of claim C6: the third enqueue into a capacity-2
reject queue that already completed two enqueues fails and leaves size 2. -/
theorem claim_C6_witness :
    ((Queue.run ⟨2, .reject⟩ Queue.new [QueueOp.enq 10, QueueOp.enq 20]).enqueue
      ⟨2, .reject⟩ 30).1 = .error (2, 2) ∧
    ((Queue.run ⟨2, .reject⟩ Queue.new [QueueOp.enq 10, QueueOp.enq 20]).enqueue
      ⟨2, .reject⟩ 30).2.items.length = 2 := by
  have h := claim_C6_reject_full_enqueue Nat ⟨2, .reject⟩
    (Queue.run ⟨2, .reject⟩ Queue.new [QueueOp.enq 10, QueueOp.enq 20]) 30 rfl (by decide)
  exact ⟨h.1, h.2.2⟩

/-- Claim C7: enqueuing into a full drop-oldest queue succeeds, preserves the
size at C, and the eventual dequeue sequence is the old tail followed by the
new item; in particular the originally-oldest item is excluded whenever it is
not duplicated elsewhere in the queue and differs from the new item. -/
theorem claim_C7_dropOldest_full_enqueue (T : Type) (cfg : QueueConfig) (q : Queue T)
    (item headOld : T) (restOld : List T)
    (hstrat : cfg.overflowStrategy = .dropOldest)
    (hfull : q.items.length = cfg.maxSize)
    (hitems : q.items = headOld :: restOld) :
    (q.enqueue cfg item).1 = .ok true ∧
    (q.enqueue cfg item).2.items = restOld ++ [item] ∧
    (q.enqueue cfg item).2.items.length = cfg.maxSize ∧
    (q.enqueue cfg item).2.drain cfg = restOld ++ [item] ∧
    (headOld ∉ restOld → headOld ≠ item →
      headOld ∉ (q.enqueue cfg item).2.drain cfg) := by
  have hge : q.items.length ≥ cfg.maxSize := le_of_eq hfull.symm
  have hge2 : cfg.maxSize ≤ restOld.length + 1 := by
    rw [hitems] at hge
    simpa using hge
  have h2 : (q.enqueue cfg item).2.items = restOld ++ [item] := by
    unfold Queue.enqueue
    simp [hge2, hstrat, hitems, Queue.pushAndMarks_items]
  have h1 : (q.enqueue cfg item).1 = .ok true := by
    unfold Queue.enqueue
    simp [hge2, hstrat, hitems]
  have hlen : (q.enqueue cfg item).2.items.length = cfg.maxSize := by
    rw [h2]
    rw [hitems] at hfull
    simp at hfull ⊢
    omega
  have hdrain : (q.enqueue cfg item).2.drain cfg = restOld ++ [item] := by
    rw [Queue.drain_items, h2]
  refine ⟨h1, h2, hlen, hdrain, ?_⟩
  intro hnotin hne
  rw [hdrain]
  simp [List.mem_append]
  exact ⟨hnotin, hne⟩

/-- Concrete instantiation of claim C7 on a full capacity-2 drop-oldest
queue holding 10 then 20, enqueuing 30: the dequeue sequence is 20, 30. -/
theorem claim_C7_witness :
    ((⟨[10, 20], 2, 0, 0, 0, 0, false⟩ : Queue Nat).enqueue ⟨2, .dropOldest⟩ 30).1
      = .ok true ∧
    ((⟨[10, 20], 2, 0, 0, 0, 0, false⟩ : Queue Nat).enqueue
      ⟨2, .dropOldest⟩ 30).2.drain ⟨2, .dropOldest⟩ = [20, 30] ∧
    10 ∉ ((⟨[10, 20], 2, 0, 0, 0, 0, false⟩ : Queue Nat).enqueue
      ⟨2, .dropOldest⟩ 30).2.drain ⟨2, .dropOldest⟩ := by
  have h := claim_C7_dropOldest_full_enqueue Nat ⟨2, .dropOldest⟩
    ⟨[10, 20], 2, 0, 0, 0, 0, false⟩ 30 10 [20] rfl (by decide) (by decide)
  exact ⟨h.1, h.2.2.2.1, h.2.2.2.2 (by decide) (by decide)⟩

/-- Claim C9: starting from a freshly constructed bounded queue with
maxSize ≥ 1, under every overflow strategy, no sequence of enqueue,
tryEnqueue, dequeue and clear operations makes the size exceed maxSize. -/
theorem claim_C9_size_never_exceeds_max (T : Type) (cfg : QueueConfig)
    (hmax : 1 ≤ cfg.maxSize) (ops : List (QueueOp T)) :
    (Queue.run cfg Queue.new ops).items.length ≤ cfg.maxSize := by
  suffices h : ∀ (ops : List (QueueOp T)) (q : Queue T),
      q.items.length ≤ cfg.maxSize → (Queue.run cfg q ops).items.length ≤ cfg.maxSize by
    exact h ops Queue.new (by simp [Queue.new])
  intro ops
  induction ops with
  | nil =>
    intro q h
    simpa [Queue.run] using h
  | cons op rest ih =>
    intro q h
    have hstep := Queue.step_length_le cfg q op hmax h
    simpa [Queue.run, List.foldl_cons] using ih (q.step cfg op) hstep

/-- Concrete instantiation of claim C9 on a capacity-2 drop-oldest queue
driven through all four operations, including overflowing enqueues. -/
theorem claim_C9_witness :
    (Queue.run ⟨2, .dropOldest⟩ Queue.new
      [QueueOp.enq 1, QueueOp.enq 2, QueueOp.enq 3, QueueOp.tryEnq 4,
       QueueOp.deq, QueueOp.clearAll, QueueOp.enq 5]).items.length ≤ 2 :=
  claim_C9_size_never_exceeds_max Nat ⟨2, .dropOldest⟩ (by decide)
    [QueueOp.enq 1, QueueOp.enq 2, QueueOp.enq 3, QueueOp.tryEnq 4,
     QueueOp.deq, QueueOp.clearAll, QueueOp.enq 5]

end Resilience

namespace Supervisor

/-- Claim C2 (evaluated at its own scenario, exhibiting the divergence): with
intervalMs = 5000, timeoutMs = 15000, missedThreshold = 3, a monitor started
at time 0 that never receives a heartbeat runs nine periodic checks through
t = 45000 and fires the dead callback zero times, not once: the
no-heartbeat-ever branch of `checkHeartbeat` increments the missed counters
(to 9, past the threshold) but never invokes `onMissed` or `onDead`. -/
theorem claim_C2_dead_callback_never_fires_without_heartbeat :
    (HBMonitor.runSilentChecks ⟨5000, 15000, 3⟩ 9 HBMonitor.new.start 5000).2 = 0 ∧
    (HBMonitor.runSilentChecks ⟨5000, 15000, 3⟩ 9 HBMonitor.new.start 5000).1.missedCount
      = 9 ∧
    (HBMonitor.runSilentChecks ⟨5000, 15000, 3⟩ 9 HBMonitor.new.start 5000).1.missedCount
      ≥ 3 := by
  decide

/-- Claim C3 (evaluated at the divergence point): a worker manager whose
worker crashed — leaving the worker handle null and a restart timer pending —
is returned completely unchanged by a graceful stop request, because `stop`
returns at its `!this.worker` guard before reaching the timer cancellation:
auto-restart stays enabled, the timer stays pending, and its firing still
attempts a new worker spawn. -/
theorem claim_C3_stop_in_crashed_state_does_not_cancel_restart :
    crashedWithPendingRestart.state = WState.crashed ∧
    crashedWithPendingRestart.workerConnected = false ∧
    crashedWithPendingRestart.restartTimerPending = true ∧
    crashedWithPendingRestart.stopRequest = crashedWithPendingRestart ∧
    crashedWithPendingRestart.stopRequest.shouldRestart = true ∧
    crashedWithPendingRestart.stopRequest.restartTimerPending = true ∧
    (crashedWithPendingRestart.stopRequest.restartTimerFire 72000).2 = true := by
  decide

/-- Claim C4 counterexample: executing a give-up decision on a running
supervisor leaves the observable state stopped, not failed — the failed
state set by the give-up branch is immediately overwritten by the stop
sequence, so failed is not terminal on this path. -/
theorem claim_C4_counterexample_failed_not_terminal :
    (runningSup.executeRecoveryAction RecoveryAction.giveUp).state = SupState.stopped ∧
    (runningSup.executeRecoveryAction RecoveryAction.giveUp).state ≠ SupState.failed := by
  decide

/-- Claim C4 as amended: a give-up decision routes the supervisor through
the failed state into the graceful stop, which always completes with the
observable state stopped (and shutdown requested); failed is not the final
state on the give-up path. -/
theorem claim_C4_giveUp_failed_then_stopped (s : Sup) :
    s.executeRecoveryAction RecoveryAction.giveUp
      = Sup.stopSupervisor { s with state := .failed } ∧
    (s.executeRecoveryAction RecoveryAction.giveUp).state = SupState.stopped ∧
    (s.executeRecoveryAction RecoveryAction.giveUp).shutdownRequested = true := by
  refine ⟨rfl, ?_, ?_⟩ <;>
    simp [Sup.executeRecoveryAction, Sup.stopSupervisor]

/-- Claim C8: whenever the rolling history contains at least three failures
within the last five minutes each with recorded worker uptime below 10000 ms,
the heuristic decision is escalate with confidence 9/10, regardless of the
consecutive-crash count, the failure reason and the current uptime. -/
theorem claim_C8_boot_loop_escalates (cfg : AIRecoveryConfig)
    (history : List FailureRecord) (reason : FailureReason)
    (consecutiveCrashes uptime now : Nat)
    (hboot : ((getRecentFailures history now (5 * 60 * 1000)).filter
        fun f => decide (f.uptime < 10000)).length ≥ 3) :
    (makeHeuristicDecision cfg history reason consecutiveCrashes uptime now).action
      = RecoveryAction.escalate ∧
    (makeHeuristicDecision cfg history reason consecutiveCrashes uptime now).confidence
      = 9/10 := by
  unfold makeHeuristicDecision
  simp [hboot]

/-- Concrete instantiation of claim C8: three sub-10s-uptime failures in the
window force escalate at confidence 9/10 even with 100 consecutive crashes. -/
theorem claim_C8_witness :
    (makeHeuristicDecision ⟨300000, 50⟩
      [⟨100, .crash, 5000⟩, ⟨200, .crash, 6000⟩, ⟨300, .crash, 7000⟩]
      FailureReason.crash 100 5000 1000).action = RecoveryAction.escalate ∧
    (makeHeuristicDecision ⟨300000, 50⟩
      [⟨100, .crash, 5000⟩, ⟨200, .crash, 6000⟩, ⟨300, .crash, 7000⟩]
      FailureReason.crash 100 5000 1000).confidence = 9/10 :=
  claim_C8_boot_loop_escalates ⟨300000, 50⟩
    [⟨100, .crash, 5000⟩, ⟨200, .crash, 6000⟩, ⟨300, .crash, 7000⟩]
    FailureReason.crash 100 5000 1000 (by decide)

end Supervisor

namespace Health

open Resilience

/-- Claim C5 counterexample: a resilient call on a fresh breaker whose two
attempts both fail with a retryable error checks breaker admission once —
not before each of the two attempts — and records a single failure outcome:
the breaker's lifetime call counter ends at 1, not 2. -/
theorem claim_C5_counterexample_per_attempt_accounting :
    (resilientCall ⟨5, 30000, 3⟩ Breaker.new 7
      (fun _ => (Except.error RCError.generic : Except RCError Nat)) 2).attemptsMade = 2 ∧
    (resilientCall ⟨5, 30000, 3⟩ Breaker.new 7
      (fun _ => (Except.error RCError.generic : Except RCError Nat)) 2).admissionChecks = 1 ∧
    (resilientCall ⟨5, 30000, 3⟩ Breaker.new 7
      (fun _ => (Except.error RCError.generic : Except RCError Nat)) 2).recordedFailures = 1 ∧
    (resilientCall ⟨5, 30000, 3⟩ Breaker.new 7
      (fun _ => (Except.error RCError.generic : Except RCError Nat)) 2).breaker.totalCalls = 1 ∧
    (resilientCall ⟨5, 30000, 3⟩ Breaker.new 7
      (fun _ => (Except.error RCError.generic : Except RCError Nat)) 2).breaker.failures = 1 ∧
    ¬ ((resilientCall ⟨5, 30000, 3⟩ Breaker.new 7
        (fun _ => (Except.error RCError.generic : Except RCError Nat)) 2).admissionChecks
      = (resilientCall ⟨5, 30000, 3⟩ Breaker.new 7
        (fun _ => (Except.error RCError.generic : Except RCError Nat)) 2).attemptsMade) := by
  decide

/-- Claim C5 as amended: with a circuit breaker configured, admission is
checked exactly once per `resilientCall` invocation, before the retry loop
starts; afterwards a single overall outcome is recorded into the breaker —
a success if the call finally succeeds, a failure if it finally fails with
anything other than a circuit-open error, and nothing on circuit-open
errors. -/
theorem claim_C5_amended_single_admission_single_record (cbCfg : CBConfig)
    (b : Breaker) (now : Nat) (fn : Nat → Except RCError Nat) (maxAttempts : Nat) :
    (resilientCall cbCfg b now fn maxAttempts).admissionChecks = 1 ∧
    (∀ a, (resilientCall cbCfg b now fn maxAttempts).result = .ok a →
      (resilientCall cbCfg b now fn maxAttempts).recordedSuccesses = 1 ∧
      (resilientCall cbCfg b now fn maxAttempts).recordedFailures = 0) ∧
    ((resilientCall cbCfg b now fn maxAttempts).result = .error .circuitOpen →
      (resilientCall cbCfg b now fn maxAttempts).recordedSuccesses = 0 ∧
      (resilientCall cbCfg b now fn maxAttempts).recordedFailures = 0) ∧
    (∀ e, (resilientCall cbCfg b now fn maxAttempts).result = .error e →
      e ≠ .circuitOpen →
      (resilientCall cbCfg b now fn maxAttempts).recordedSuccesses = 0 ∧
      (resilientCall cbCfg b now fn maxAttempts).recordedFailures = 1) := by
  rcases hb : b.isAllowed cbCfg now with ⟨adm, b'⟩
  rcases hr : retryAsync fn maxAttempts with ⟨res, n⟩
  cases adm with
  | false => simp [resilientCall, hb]
  | true =>
    cases res with
    | ok a => simp [resilientCall, hb, hr]
    | error e =>
      by_cases he : e = RCError.circuitOpen
      · subst he
        simp [resilientCall, hb, hr]
      · simp [resilientCall, hb, hr, he]

/-- Concrete instantiation of amended claim C5: the two-failing-attempt call
checks admission once and records exactly one failure. -/
theorem claim_C5_witness :
    (resilientCall ⟨5, 30000, 3⟩ Breaker.new 7
      (fun _ => (Except.error RCError.generic : Except RCError Nat)) 2).admissionChecks = 1 ∧
    (resilientCall ⟨5, 30000, 3⟩ Breaker.new 7
      (fun _ => (Except.error RCError.generic : Except RCError Nat)) 2).recordedSuccesses = 0 ∧
    (resilientCall ⟨5, 30000, 3⟩ Breaker.new 7
      (fun _ => (Except.error RCError.generic : Except RCError Nat)) 2).recordedFailures = 1 := by
  have h := claim_C5_amended_single_admission_single_record ⟨5, 30000, 3⟩
    Breaker.new 7 (fun _ => (Except.error RCError.generic : Except RCError Nat)) 2
  have hrec := h.2.2.2 RCError.generic rfl (by decide)
  exact ⟨h.1, hrec.1, hrec.2⟩

end Health
end Smartseek
